import Mathlib

/-!
Verification of the orbit-ssr incremental rebuild engine: a shallow
embedding of the jsparse tokenizer helpers, the dependency source map, the
change-request scheduler (`devSession.DoFileChangeRequest` and the
`changeRequest` debounce cache), and the two dev-server event loops
(`RedirectionBundler`, `FileWatcherBundler`).

Components whose implementation is present in the repository sources are
translated directly; components only visible through their tests or callers
are modelled from the specification and marked `Modelled from the spec:` in
their doc comments.
-/

namespace Orbit

/-! ## Character-list utilities (Go `strings` helpers) -/

/-- `leadsWith pre l` is true when `pre` is an initial segment of `l`
(Go `strings.HasPrefix` on rune lists). -/
def leadsWith : List Char → List Char → Bool
  | [], _ => true
  | _ :: _, [] => false
  | a :: as, b :: bs => a == b && leadsWith as bs

/-- `hasSubList sub l` is true when `sub` occurs contiguously inside `l`
(Go `strings.Contains` on rune lists). -/
def hasSubList (sub : List Char) : List Char → Bool
  | [] => sub.isEmpty
  | c :: rest => leadsWith sub (c :: rest) || hasSubList sub rest

/-- Go `strings.Contains`. -/
def containsSub (s sub : String) : Bool := hasSubList sub.data s.data

/-- Split a rune list at every occurrence of the separator, keeping empty
pieces (Go `strings.Split`). -/
def splitByChar (p : Char → Bool) : List Char → List (List Char)
  | [] => [[]]
  | c :: rest =>
    let r := splitByChar p rest
    if p c then [] :: r
    else match r with
      | w :: ws => (c :: w) :: ws
      | [] => [[c]]

/-- Join rune-list words with a separator (Go `strings.Join`). -/
def joinWithChar (sep : Char) : List (List Char) → List Char
  | [] => []
  | [w] => w
  | w :: ws => w ++ sep :: joinWithChar sep ws

def listAsStr (l : List Char) : String := String.mk l

def singleQuote : Char := Char.ofNat 39

def doubleQuote : Char := Char.ofNat 34

-- scratch checks
example : containsSub "pages/thing.js" "pages/" = true := by decide
example : containsSub "src/thing.js" ".orbit" = false := by decide
example : splitByChar (fun c => c = '/') "./thing/apple.js".data =
    [".".data, "thing".data, "apple.js".data] := by decide

/-! ## Tokenizer / import rewriter (`pkg/jsparse`)

The jsparse implementation itself is not among the sources; only its two
test files are.  The functions below are therefore modelled from the
specification (§4.1 of the spec) and validated against the expectations
recorded in the tests. -/

inductive ImportType
  | moduleImport
  | localImport
deriving Repr, DecidableEq, BEq

structure ImportDependency where
  initialPath : String
  finalStatement : String
  kind : ImportType
deriving Repr, DecidableEq, BEq

/-- Split a rune list just before its first quote character, returning the
part before the quote, the quote character used, and the rest. -/
def splitAtQuote : List Char → Option (List Char × Char × List Char)
  | [] => none
  | c :: rest =>
    if c = singleQuote || c = doubleQuote then some ([], c, rest)
    else match splitAtQuote rest with
      | some (pre, q, post) => some (c :: pre, q, post)
      | none => none

/-- Split a rune list just before the first occurrence of `q`, returning the
part before and the part after. -/
def splitAtChar (q : Char) : List Char → Option (List Char × List Char)
  | [] => none
  | c :: rest =>
    if c = q then some ([], rest)
    else match splitAtChar q rest with
      | some (a, b) => some (c :: a, b)
      | none => none

/-- Decompose an import line around its quoted specifier:
`before ++ quote ++ specifier ++ quote ++ after`. -/
def importPathOf (line : String) : Option (List Char × List Char × List Char) :=
  match splitAtQuote line.data with
  | none => none
  | some (pre, q, post) =>
    match splitAtChar q post with
    | none => none
    | some (spc, suffix) => some (pre, spc, suffix)

/-- A specifier is local (relative/absolute path) when its first rune is
`.` or `/`; anything else is a package-style module specifier. -/
def isLocalSpec : List Char → Bool
  | [] => false
  | c :: _ => c = '.' || c = '/'

/-- Modelled from the spec: `lineImportType` classifies an import line as a
Local import (relative-path specifier) or a Module import (bare module
name); the jsparse implementation is absent from the sources. -/
def lineImportType (line : String) : ImportType :=
  match importPathOf line with
  | some (_, spc, _) => if isLocalSpec spc then .localImport else .moduleImport
  | none => .moduleImport

/-- Directory part of the importing file's path with `.` and empty segments
removed: `./thing/apple.js` becomes `thing`. -/
def dirWords (pageDir : String) : List (List Char) :=
  ((splitByChar (fun c => c = '/') pageDir.data).dropLast).filter
    (fun w => !(w.isEmpty) && w ≠ ['.'])

/-- Modelled from the spec: resolve a local specifier against the importing
file's directory (`./x` forms) or the configured web directory (`../x` and
absolute forms), re-expressed relative to the generated output directory,
which sits three levels deep (hence the leading `../../../`). -/
def resolvedImportPath (webDir pageDir : String) (spc : List Char) : List Char :=
  if leadsWith "./".data spc then
    "../../../".data ++ joinWithChar '/' (dirWords pageDir) ++ '/' :: spc.drop 2
  else if leadsWith "../".data spc then
    "../../../".data ++ webDir.data ++ '/' :: spc.drop 3
  else
    "../../../".data ++ webDir.data ++ '/' :: spc

/-- Last `/`-separated segment of a path. -/
def lastSeg (p : List Char) : List Char :=
  ((splitByChar (fun c => c = '/') p).getLast?).getD []

/-- Modelled from the spec: `formatImportLine` — Module imports are returned
unchanged; Local imports have their specifier resolved, their extension
defaulted to `.jsx` when none is present, and `/index.jsx` appended when the
target is a directory (the filesystem directory check is abstracted as the
oracle `isDir`).  The jsparse implementation is absent from the sources;
this model follows §4.1 of the spec and the recorded test expectations. -/
def formatImportLine (webDir pageDir : String) (isDir : String → Bool)
    (line : String) : ImportDependency :=
  if lineImportType line = .moduleImport then
    ⟨line, line, .moduleImport⟩
  else
    match importPathOf line with
    | some (pre, spc, suffix) =>
      let core := resolvedImportPath webDir pageDir spc
      let resolved :=
        if isDir (listAsStr spc) then core ++ "/index.jsx".data
        else if (lastSeg core).contains '.' then core
        else core ++ ".jsx".data
      ⟨line, listAsStr (pre ++ singleQuote :: resolved ++ singleQuote :: suffix),
        .localImport⟩
    | none => ⟨line, line, .moduleImport⟩

-- scratch checks against the recorded test expectations
example : (formatImportLine "test" "./thing/apple.js" (fun _ => false)
    "import Thing2 from './thing2'").finalStatement =
    "import Thing2 from '../../../thing/thing2.jsx'" := by decide
example : (formatImportLine "test" "./thing/apple.js" (fun _ => false)
    "import React from '../react'").finalStatement =
    "import React from '../../../test/react.jsx'" := by decide
example : (formatImportLine "test" "./thing/apple.js" (fun _ => false)
    "import React from \"../react\"").finalStatement =
    "import React from '../../../test/react.jsx'" := by decide
example : (formatImportLine "test" "./thing/apple.js" (fun _ => false)
    "import \x7b tool \x7d from '../tools/test'").finalStatement =
    "import \x7b tool \x7d from '../../../test/tools/test.jsx'" := by decide
example : (formatImportLine "test" "./thing/apple.js" (fun _ => false)
    "import \x7b tool \x7d from '../tools/test.js'").finalStatement =
    "import \x7b tool \x7d from '../../../test/tools/test.js'" := by decide
example : (formatImportLine "test" "./thing/apple.js" (fun _ => false)
    "import React from 'react'").finalStatement = "import React from 'react'" := by
  decide
example : (formatImportLine "test" "./thing/apple.js" (fun _ => false)
    "import 'thing.css'").finalStatement = "import 'thing.css'" := by decide
example : lineImportType "import \x7b thing \x7d from \"@test/util\"" =
    .moduleImport := by decide
example : lineImportType "import cat from \"../../utils.jsx\"" = .localImport := by
  decide

/-! ## Default-export detection and synthetic page names -/

inductive ExportErr
  | notCapitalized
  | functionExport
deriving Repr, DecidableEq, BEq

/-- Strip everything from the first `.` on (drops the file extension). -/
def stripExt (l : List Char) : List Char :=
  (splitByChar (fun c => c = '.') l).headD []

/-- Capitalize the first rune of a word. -/
def capWord : List Char → List Char
  | [] => []
  | c :: rest => c.toUpper :: rest

/-- Base name of a path: the part after the last `/`. -/
def baseNameOf (path : String) : List Char :=
  ((splitByChar (fun c => c = '/') path.data).getLast?).getD []

/-- Modelled from the spec: `defaultPageName` derives a PascalCase synthetic
name from a source file's base name — the extension is stripped and `_`/`-`
separators collapse, capitalizing each word.  The jsparse implementation is
absent from the sources. -/
def defaultPageName (base : String) : String :=
  listAsStr
    (((splitByChar (fun c => c = '_' || c = '-') (stripExt base.data)).map
        capWord).foldr (· ++ ·) [])

/-- The rune list `"export default "`. -/
def exportDefaultMarker : List Char := "export default ".data

/-- Modelled from the spec: default-export handling of the tokenizer.  Given
the source file path (empty when no file-name context is available) and an
`export default <expr>` line it returns the export name and the (possibly
rewritten) line, or the corresponding error:
a single capitalized identifier passes through unchanged; a lowercase
identifier fails with `ErrExportNotCapitalized`; a call/HOC-wrapped
expression or anonymous function/arrow is bound to a synthesized
`const <Name> = <expr>` declaration named after the file, failing with
`ErrFunctionExport` when no file-name context exists.  The jsparse
implementation is absent from the sources. -/
def handleExportDefault (path line : String) : Except ExportErr (String × String) :=
  if leadsWith exportDefaultMarker line.data then
    let expr := line.data.drop exportDefaultMarker.length
    if expr.contains '(' then
      if path = "" then .error .functionExport
      else
        let name := defaultPageName (listAsStr (baseNameOf path))
        .ok (name, "const " ++ name ++ " = " ++ listAsStr expr)
    else
      match expr with
      | [] => .error .notCapitalized
      | c :: _ => if c.isUpper then .ok (listAsStr expr, line) else .error .notCapitalized
  else .error .notCapitalized

/-- Modelled from the spec: `extractDefaultExportName` — default-export name
extraction with no file-name context available.  The jsparse implementation
is absent from the sources. -/
def extractDefaultExportName (line : String) : Except ExportErr String :=
  (handleExportDefault "" line).map (fun p => p.1)

-- scratch checks against the recorded test expectations
example : defaultPageName "thing_stuff" = "ThingStuff" := by decide
example : defaultPageName "sff_m.js" = "SffM" := by decide
example : defaultPageName "this-thing" = "ThisThing" := by decide
example : extractDefaultExportName "export default Test" = .ok "Test" := rfl
example : extractDefaultExportName "export default test" =
    .error .notCapitalized := rfl
example : extractDefaultExportName "export default () => \x7b\x7d" =
    .error .functionExport := rfl
example : handleExportDefault "this-thing" "export default HOCSomething(Component)" =
    .ok ("ThisThing", "const ThisThing = HOCSomething(Component)") := rfl
example : handleExportDefault "something_easy" "export default () => (<> </>)" =
    .ok ("SomethingEasy", "const SomethingEasy = () => (<> </>)") := rfl

/-! ## Dependency source map (`pkg/depend_tree`)

The dependtree implementation is absent from the sources; the reverse index
and its merge operations are modelled from §4.2 of the spec.  A map is an
association list from a dependency file path to the list of root-component
file paths depending on it (Go `map[string][]string`; keys are unique by
construction there, which here is the `keysNodup` invariant). -/

abbrev SMap := List (String × List String)

/-- Union of two root lists keeping the left order and dropping roots
already present (set union on lists). -/
def mergeRoots (a b : List String) : List String :=
  a ++ b.filter (fun r => !(a.contains r))

/-- Roots recorded for a dependency key; `[]` when the key is absent
(spec §4.2 `FindRoot`: all roots whose transitive set contains the file). -/
def smapLookup (m : SMap) (k : String) : List String :=
  match m.find? (fun p => p.1 == k) with
  | some p => p.2
  | none => []

/-- Modelled from the spec: `Merge` — full union of both maps' entries (set
union per key).  The dependtree implementation is absent from the sources. -/
def smapMerge (a b : SMap) : SMap :=
  (a.map (fun p => (p.1, mergeRoots p.2 (smapLookup b p.1)))) ++
    b.filter (fun q => !(a.any (fun p => p.1 == q.1)))

/-- All root-component paths mentioned anywhere in a map's entries. -/
def smapRoots (m : SMap) : List String :=
  m.foldr (fun p acc => p.2 ++ acc) []

/-- Modelled from the spec: `MergeOverKey` — for every root present in the
incoming map, replace that root's contribution across all keys of the
receiver with the incoming contribution, leaving other roots' entries
untouched.  The dependtree implementation is absent from the sources. -/
def smapMergeOverKey (a b : SMap) : SMap :=
  smapMerge
    (a.map (fun p => (p.1, p.2.filter (fun r => !((smapRoots b).contains r))))) b

/-- Keys of a source map. -/
def smapKeys (m : SMap) : List String := m.map (fun p => p.1)

/-! ## Change-request cache (`internal` package, in the sources) -/

/-- Modelled from the spec: the allocated stack keeps at most `cap` most
recently added keys, evicting the oldest on overflow; the
`pkg/allocated_stack` implementation is absent from the sources. -/
def stackAdd (cap : Nat) (s : List String) (k : String) : List String :=
  (k :: s).take cap

/-- State of `changeRequest`: the most recent file pushed, when it was
pushed, and the bounded recency cache of bundle keys.  Times are modelled as
integers (`time.Time`/`time.Duration` compared via `Seconds()`). -/
structure ChangeRequestState where
  lastFileName : String
  lastProcessedAt : Int
  cacheCap : Nat
  cache : List String
deriving Repr, DecidableEq

/-- `changeRequest.Push` (from the sources): record the file name and the
current time, and add the bundle key to the recency cache. -/
def changeRequestPush (c : ChangeRequestState) (fileName bundleKey : String)
    (now : Int) : ChangeRequestState :=
  { c with lastFileName := fileName, lastProcessedAt := now,
           cache := stackAdd c.cacheCap c.cache bundleKey }

/-- `changeRequest.IsWithinRage` (from the sources): accept (`true`) unless
the file equals the most recently pushed file name and the elapsed time
since that push does not exceed the timeout. -/
def isWithinRage (c : ChangeRequestState) (file : String) (timeout now : Int) :
    Bool :=
  if file == c.lastFileName then decide (now - c.lastProcessedAt > timeout)
  else true

/-- `changeRequest.ExistsInCache` (from the sources). -/
def existsInCache (c : ChangeRequestState) (key : String) : Bool :=
  c.cache.contains key

/-! ## Change-request scheduler (`devSession`, in the sources)

`DoFileChangeRequest` and its three handlers are translated from the
`internal` package sources.  External collaborators (hot reloader, packer,
libout writer, `srcpack.New`) are oracles; their answers are inputs of the
step function. -/

/-- A packed root component: original file path and bundle key. -/
structure PackComponent where
  originalFilePath : String
  bundleKey : String
deriving Repr, DecidableEq

/-- Answers of the external collaborators consulted during a change
request. -/
structure Oracles where
  /-- `HotReload.IsActiveBundle` -/
  isActiveBundle : String → Bool
  /-- error of `HotReload.ReloadSignal`, `none` on success -/
  reloadResult : Option String
  /-- whether `assets.AssetKeys()` succeeds -/
  assetKeysOk : Bool
  /-- `packer.PackSingle` -/
  packSingle : String → Except String PackComponent
  /-- error of `libout.WriteLibout`, `none` on success -/
  writeLiboutResult : Option String
  /-- `srcpack.New`: the sub-map recomputed for a component -/
  newSourceMap : PackComponent → Except String SMap

/-- `PackComponentFileMap` lookup (`s.RootComponents[filePath]`). -/
def lookupComponent (m : List (String × PackComponent)) (k : String) :
    Option PackComponent :=
  match m.find? (fun p => p.1 == k) with
  | some p => some p.2
  | none => none

/-- `PackComponentFileMap.Set`: register a component under its original file
path, replacing any previous entry for that path. -/
def setComponent (m : List (String × PackComponent)) (c : PackComponent) :
    List (String × PackComponent) :=
  if m.any (fun p => p.1 == c.originalFilePath) then
    m.map (fun p => if p.1 == c.originalFilePath then (p.1, c) else p)
  else m ++ [(c.originalFilePath, c)]

/-- Mutable state of a `devSession` touched by a change request. -/
structure DevState where
  rootComponents : List (String × PackComponent)
  sourceMap : SMap
  cr : ChangeRequestState

/-- Rebuild classifications a single `DoFileChangeRequest` call can
perform. -/
inductive Classification
  | direct
  | newPage
  | indirect
deriving Repr, DecidableEq, BEq

/-- Errors surfaced by `DoFileChangeRequest`: the debounce rejection, or any
other error wrapped with the originating file path
(`parseerror.FromError`). -/
inductive SessionErr
  | tooRecent
  | parseErr (msg : String) (path : String)
deriving Repr, DecidableEq

/-- `devSession.DirectFileChangeRequest` (from the sources): repack the
component, push `(path, bundleKey)` into the recency cache, recompute its
sub-map and `MergeOverKey` it into the session graph. -/
def directFileChangeRequest (o : Oracles) (now : Int) (st : DevState)
    (filePath : String) (component : Option PackComponent) :
    DevState × Option String :=
  match component with
  | none => (st, none)
  | some c =>
    let fp := if filePath == "" then c.originalFilePath else filePath
    let st1 := { st with cr := changeRequestPush st.cr fp c.bundleKey now }
    match o.newSourceMap c with
    | .error e => (st1, some e)
    | .ok m => ({ st1 with sourceMap := smapMergeOverKey st1.sourceMap m }, none)

/-- `devSession.IndirectFileChangeRequest` (from the sources): walk the
roots returned by `FindRoot` until one with an active bundle is found;
repack it, push `(indirectFile, bundleKey)`, `MergeOverKey`, and stop.
Roots without an active bundle are skipped.  (A root missing from the
component registry is skipped here; the Go code would dereference a nil
component there, a situation the session invariant rules out.) -/
def indirectFileChangeRequest (o : Oracles) (now : Int) (st : DevState)
    (sources : List String) (indirectFile : String) : DevState × Option String :=
  match sources with
  | [] => (st, none)
  | source :: rest =>
    match lookupComponent st.rootComponents source with
    | none => indirectFileChangeRequest o now st rest indirectFile
    | some component =>
      if o.isActiveBundle component.bundleKey then
        let st1 :=
          { st with cr := changeRequestPush st.cr indirectFile component.bundleKey now }
        match o.newSourceMap component with
        | .error e => (st1, some e)
        | .ok m => ({ st1 with sourceMap := smapMergeOverKey st1.sourceMap m }, none)
      else indirectFileChangeRequest o now st rest indirectFile

/-- `devSession.NewPageFileChangeRequest` (from the sources): build asset
keys, pack the file as a new component, regenerate the backend glue, merge
(full union) the new sub-map into the session graph, register the component
and push `(file, bundleKey)` into the recency cache. -/
def newPageFileChangeRequest (o : Oracles) (now : Int) (st : DevState)
    (file : String) : DevState × Option String :=
  if o.assetKeysOk then
    match o.packSingle file with
    | .error e => (st, some e)
    | .ok component =>
      match o.writeLiboutResult with
      | some e => (st, some e)
      | none =>
        match o.newSourceMap component with
        | .error e => (st, some e)
        | .ok m =>
          ({ st with
              sourceMap := smapMerge st.sourceMap m,
              rootComponents := setComponent st.rootComponents component,
              cr := changeRequestPush st.cr file component.bundleKey now }, none)
  else (st, some "cannot build asset keys")

/-- The `FindRoot`-guarded tail of `DoFileChangeRequest`: if the path is a
dependency of one or more roots, perform an indirect change request and
signal reload; otherwise do nothing. -/
def indirectPhase (o : Oracles) (now : Int) (st : DevState) (filePath : String) :
    DevState × List Classification × Option SessionErr :=
  if (smapLookup st.sourceMap filePath).isEmpty then (st, [], none)
  else
    match indirectFileChangeRequest o now st (smapLookup st.sourceMap filePath)
        filePath with
    | (st1, some m) => (st1, [.indirect], some (.parseErr m filePath))
    | (st1, none) =>
      match o.reloadResult with
      | some m => (st1, [.indirect], some (.parseErr m filePath))
      | none => (st1, [.indirect], none)

/-- The part of `DoFileChangeRequest` after the root-component check: the
`pages/` branch (which does NOT return on success and falls through to the
`FindRoot` branch), then the `FindRoot` branch. -/
def afterDirect (o : Oracles) (now : Int) (st : DevState) (filePath : String) :
    DevState × List Classification × Option SessionErr :=
  if containsSub filePath "pages/" = true then
    match newPageFileChangeRequest o now st filePath with
    | (st1, some m) => (st1, [.newPage], some (.parseErr m filePath))
    | (st1, none) =>
      let r := indirectPhase o now st1 filePath
      (r.1, .newPage :: r.2.1, r.2.2)
  else indirectPhase o now st filePath

/-- `devSession.DoFileChangeRequest` (from the sources).  The branches, in
order: debounce rejection; `.orbit` output paths ignored; a known root
component with an active bundle is repacked directly (and evaluation
stops); otherwise a path under `pages/` is packed as a new page; and a path
that `FindRoot` locates as a dependency triggers an indirect rebuild.  The
result is the updated state, the list of rebuild classifications performed,
and the error returned. -/
def doFileChangeRequest (o : Oracles) (timeout now : Int) (st : DevState)
    (filePath : String) : DevState × List Classification × Option SessionErr :=
  if isWithinRage st.cr filePath timeout now = false then
    (st, [], some .tooRecent)
  else if containsSub filePath ".orbit" = true then (st, [], none)
  else
    match lookupComponent st.rootComponents filePath with
    | some root =>
      if o.isActiveBundle root.bundleKey then
        match directFileChangeRequest o now st filePath (some root) with
        | (st1, some m) => (st1, [.direct], some (.parseErr m filePath))
        | (st1, none) =>
          match o.reloadResult with
          | some m => (st1, [.direct], some (.parseErr m filePath))
          | none => (st1, [.direct], none)
      else afterDirect o now st filePath
    | none => afterDirect o now st filePath

/-- Whether the direct-rebuild branch of `DoFileChangeRequest` applies: the
path is a registered root component whose bundle is currently active. -/
def directCond (o : Oracles) (st : DevState) (fp : String) : Bool :=
  match lookupComponent st.rootComponents fp with
  | some c => o.isActiveBundle c.bundleKey
  | none => false

/-! ## Dev-server event loops (`DevServer`, in the sources) -/

/-- Modelled from the spec: `BundleKeys.Diff` is a plain set difference on
bundle-key sets (§4.3); the hotreload implementation is absent from the
sources. -/
def bundleKeysDiff (active previous : List String) : List String :=
  active.filter (fun k => !(previous.contains k))

/-- The per-key body of `RedirectionBundler` (from the sources): a key
already in the recency cache is skipped; otherwise a rebuild is attempted
for it, and a failed rebuild only appends a warning. -/
def redirectionFold (rebuildErr : String → Option String) (cache : List String)
    (acc : List String × List String) (k : String) : List String × List String :=
  if cache.contains k then acc
  else
    match rebuildErr k with
    | some msg => (acc.1 ++ [k], acc.2 ++ [msg])
    | none => (acc.1 ++ [k], acc.2)

/-- One `RedirectionBundler` event (from the sources): for each key of
`active − previous` not already in the recency cache, spawn a rebuild;
a failed rebuild only emits a warning.  `rebuildErr k` is the error of
`DoBundleKeyChangeRequest` for key `k` (`none` on success).  Returns the
keys for which a rebuild was attempted and the warnings emitted; the event
loop itself has no failure outcome. -/
def redirectionStep (rebuildErr : String → Option String) (cache : List String)
    (active previous : List String) : List String × List String :=
  (bundleKeysDiff active previous).foldl (redirectionFold rebuildErr cache) ([], [])

/-- Log emissions of the file-watcher loop. -/
inductive LogAction
  | hotReloadError (msg : String)
  | loggerError (msg : String)
deriving Repr, DecidableEq

/-- Rendering of a session error as a log message (the wrap format of
`parseerror` is not in the sources; only the message's existence matters). -/
def errMsg : SessionErr → String
  | .tooRecent => "change not accepted, file too recently processed"
  | .parseErr m p => p ++ ": " ++ m

/-- Outcome of handling one processed event in `FileWatcherBundler`. -/
structure WatchOutcome where
  logs : List LogAction
  aborted : Bool
deriving Repr, DecidableEq

/-- `FileWatcherBundler`'s handling of a `DoFileChangeRequest` result (from
the sources): `nil` and `ErrFileTooRecentlyProcessed` produce no log; every
other error is emitted to the hot-reloader and the logger; in all cases the
loop continues waiting for the next event. -/
def fileWatcherHandle : Option SessionErr → WatchOutcome
  | none => ⟨[], false⟩
  | some .tooRecent => ⟨[], false⟩
  | some (.parseErr m p) =>
    ⟨[.hotReloadError (errMsg (.parseErr m p)),
      .loggerError (errMsg (.parseErr m p))], false⟩

/-! ## Concrete sessions used by witnesses and counterexamples -/

/-- Oracles for which every collaborator succeeds, no bundle is active, and
recomputed sub-maps are empty. -/
def quietOracles : Oracles where
  isActiveBundle := fun _ => false
  reloadResult := none
  assetKeysOk := true
  packSingle := fun f => .ok ⟨f, "key-" ++ f⟩
  writeLiboutResult := none
  newSourceMap := fun _ => .ok []

/-- A session that last processed `"f"` at time `100` with an empty graph. -/
def debounceSt : DevState where
  rootComponents := []
  sourceMap := []
  cr := { lastFileName := "f", lastProcessedAt := 100, cacheCap := 10, cache := [] }

/-- Session for the C1 counterexample: `pages/a.js` and `pages/b.js` are
known roots, and `pages/b.js` is also recorded as a dependency of
`pages/a.js` in the source map. -/
def c1St : DevState where
  rootComponents :=
    [("pages/a.js", ⟨"pages/a.js", "ka"⟩), ("pages/b.js", ⟨"pages/b.js", "kb"⟩)]
  sourceMap := [("pages/b.js", ["pages/a.js"])]
  cr := { lastFileName := "", lastProcessedAt := 0, cacheCap := 10, cache := [] }

/-- Oracles for the C1 counterexample: only bundle `ka` is active, every
collaborator succeeds. -/
def c1Oracles : Oracles where
  isActiveBundle := fun k => k == "ka"
  reloadResult := none
  assetKeysOk := true
  packSingle := fun f => .ok ⟨f, "kb2"⟩
  writeLiboutResult := none
  newSourceMap := fun _ => .ok []

-- scratch: the C1 run
example :
    (doFileChangeRequest c1Oracles 10 100 c1St "pages/b.js").2.1 =
      [.newPage, .indirect] := rfl
example :
    (doFileChangeRequest quietOracles 10 105 debounceSt "f").2.2 =
      some .tooRecent := rfl
example :
    (doFileChangeRequest quietOracles 10 120 debounceSt "f").2.2 = none := rfl

/-- Concrete map used by the C7 witness. -/
def c7A : SMap := [("d", ["r1", "r2"]), ("e", ["r2"])]

/-- Second concrete map used by the C7 witness. -/
def c7B : SMap := [("d", ["r3"])]

/-! ## Theorems -/

/-- C3: with web directory `test` and importing file `./thing/apple.js`, a
relative import line is resolved against the importing file's directory and
re-expressed relative to the output directory: `import Thing2 from
'./thing2'` rewrites to `import Thing2 from '../../../thing/thing2.jsx'`
(extension defaulted to `.jsx`); an explicit extension is kept; a specifier
resolving to a directory gets `/index.jsx` appended. -/
theorem formatImportLine_relative_rewrite :
    formatImportLine "test" "./thing/apple.js" (fun _ => false)
        "import Thing2 from './thing2'" =
      ⟨"import Thing2 from './thing2'",
       "import Thing2 from '../../../thing/thing2.jsx'", .localImport⟩ ∧
    formatImportLine "test" "./thing/apple.js" (fun _ => false)
        "import \x7b tool \x7d from '../tools/test.js'" =
      ⟨"import \x7b tool \x7d from '../tools/test.js'",
       "import \x7b tool \x7d from '../../../test/tools/test.js'", .localImport⟩ ∧
    formatImportLine "test" "./thing/apple.js" (fun s => s == "./somedir")
        "import Thing from './somedir'" =
      ⟨"import Thing from './somedir'",
       "import Thing from '../../../thing/somedir/index.jsx'", .localImport⟩ :=
  ⟨rfl, rfl, rfl⟩

/-- C4: an import line whose specifier is a bare module name is classified
as a Module import and its final statement is byte-identical to the raw
input line. -/
theorem formatImportLine_module_unchanged (webDir pageDir : String)
    (isDir : String → Bool) (line : String)
    (h : lineImportType line = .moduleImport) :
    formatImportLine webDir pageDir isDir line = ⟨line, line, .moduleImport⟩ := by
  simp [formatImportLine, h]

/-- C4 witness: `import React from 'react'` is returned byte-identical. -/
theorem formatImportLine_module_unchanged_witness :
    formatImportLine "test" "./thing/apple.js" (fun _ => false)
        "import React from 'react'" =
      ⟨"import React from 'react'", "import React from 'react'",
        .moduleImport⟩ :=
  formatImportLine_module_unchanged "test" "./thing/apple.js" (fun _ => false)
    "import React from 'react'" rfl

/-- C5: `export default React` (capitalized identifier) succeeds with name
`React` and the line unchanged; `export default thing` (lowercase
identifier) fails with `ErrExportNotCapitalized`; an anonymous arrow with no
file-name context fails with `ErrFunctionExport`. -/
theorem exportDefault_classification :
    handleExportDefault "" "export default React" =
      .ok ("React", "export default React") ∧
    extractDefaultExportName "export default React" = .ok "React" ∧
    extractDefaultExportName "export default thing" = .error .notCapitalized ∧
    extractDefaultExportName "export default () => \x7b\x7d" =
      .error .functionExport :=
  ⟨rfl, rfl, rfl, rfl⟩

/-- C6: the synthetic export name is the PascalCase of the source file's
base name (extension stripped, separators collapsed), and call/HOC-wrapped
or anonymous default exports are rewritten to `const <Name> = <expr>` with
that name as the export name. -/
theorem syntheticExportName_pascal :
    defaultPageName "thing_stuff" = "ThingStuff" ∧
    defaultPageName "sff_m.js" = "SffM" ∧
    handleExportDefault "this-thing" "export default HOCSomething(Component)" =
      .ok ("ThisThing", "const ThisThing = HOCSomething(Component)") ∧
    handleExportDefault "something_easy" "export default () => (<> </>)" =
      .ok ("SomethingEasy", "const SomethingEasy = () => (<> </>)") :=
  ⟨rfl, rfl, rfl, rfl⟩

/-- Taking the union of a root list with itself changes nothing. -/
theorem mergeRoots_self (l : List String) : mergeRoots l l = l := by
  unfold mergeRoots
  have h : l.filter (fun r => !(l.contains r)) = [] := by
    refine List.filter_eq_nil_iff.mpr ?_
    intro a ha
    have hc : l.contains a = true := List.elem_eq_true_of_mem ha
    simp [hc]
    exact ha
  rw [h, List.append_nil]

/-- With duplicate-free keys, `find?` locates each entry of the map. -/
theorem smapFind_eq_of_mem (A : SMap) (p : String × List String)
    (hnd : (smapKeys A).Nodup) (hp : p ∈ A) :
    A.find? (fun q => q.1 == p.1) = some p := by
  induction A with
  | nil => cases hp
  | cons x rest ih =>
    rcases List.mem_cons.mp hp with h | h
    · subst h
      simp [List.find?]
    · have hxk : x.1 ∉ smapKeys rest := by
        have := hnd
        simp only [smapKeys, List.map_cons, List.nodup_cons] at this
        exact this.1
      have hx : x.1 ≠ p.1 := by
        intro he
        exact hxk (he ▸ List.mem_map_of_mem (fun q => q.1) h)
      have hbeq : (x.1 == p.1) = false := by simp [hx]
      have hnd' : (smapKeys rest).Nodup := by
        have := hnd
        simp only [smapKeys, List.map_cons, List.nodup_cons] at this
        exact this.2
      simp only [List.find?, hbeq]
      exact ih hnd' h

/-- With duplicate-free keys, looking up an entry's key returns its roots. -/
theorem smapLookup_eq_of_mem (A : SMap) (p : String × List String)
    (hnd : (smapKeys A).Nodup) (hp : p ∈ A) : smapLookup A p.1 = p.2 := by
  unfold smapLookup
  rw [smapFind_eq_of_mem A p hnd hp]

/-- The union of two duplicate-free root lists is duplicate-free. -/
theorem mergeRoots_nodup (a b : List String) (ha : a.Nodup) (hb : b.Nodup) :
    (mergeRoots a b).Nodup := by
  unfold mergeRoots
  refine ha.append (hb.filter _) ?_
  intro x hxa hxf
  have := (List.mem_filter.mp hxf).2
  simp only [Bool.not_eq_true'] at this
  have hc : a.contains x = true := List.elem_eq_true_of_mem hxa
  rw [hc] at this
  cases this

/-- Every root list looked up in a map with duplicate-free entries is
duplicate-free. -/
theorem smapLookup_nodup (B : SMap) (hB : ∀ q ∈ B, (q.2 : List String).Nodup)
    (k : String) : (smapLookup B k).Nodup := by
  unfold smapLookup
  cases hfind : B.find? (fun p => p.1 == k) with
  | none => exact List.nodup_nil
  | some q => exact hB q (List.mem_of_find?_eq_some hfind)

/-- C7 (spec-modelled): `Merge` is an idempotent set union — merging a map
with itself yields the same map (for the duplicate-free keys a Go map
guarantees), and every entry of a merged map is duplicate-free provided the
inputs satisfy the no-duplicate-roots invariant. -/
theorem smapMerge_idempotent_union (A B : SMap) (hA : (smapKeys A).Nodup) :
    smapMerge A A = A ∧
    ((∀ p ∈ A, (p.2 : List String).Nodup) → (∀ q ∈ B, (q.2 : List String).Nodup) →
      ∀ r ∈ smapMerge A B, (r.2 : List String).Nodup) := by
  constructor
  · unfold smapMerge
    have h1 : A.map (fun p => (p.1, mergeRoots p.2 (smapLookup A p.1))) = A := by
      conv_rhs => rw [← List.map_id A]
      refine List.map_congr_left ?_
      intro p hp
      rw [smapLookup_eq_of_mem A p hA hp, mergeRoots_self, id]
    have h2 : A.filter (fun q => !(A.any (fun p => p.1 == q.1))) = [] := by
      refine List.filter_eq_nil_iff.mpr ?_
      intro q hq
      have : A.any (fun p => p.1 == q.1) = true :=
        List.any_eq_true.mpr ⟨q, hq, by simp⟩
      simp [this]
    rw [h1, h2, List.append_nil]
  · intro hAe hBe r hr
    unfold smapMerge at hr
    rcases List.mem_append.mp hr with h | h
    · rcases List.mem_map.mp h with ⟨p, hp, hpr⟩
      subst hpr
      exact mergeRoots_nodup _ _ (hAe p hp) (smapLookup_nodup B hBe p.1)
    · exact hBe r (List.mem_of_mem_filter h)

/-- C7 witness: merging a concrete two-entry map with itself yields the same
map, and the merged entry for key `d` of two concrete maps is
duplicate-free. -/
theorem smapMerge_idempotent_union_witness :
    smapMerge c7A c7A = c7A ∧ (["r1", "r2", "r3"] : List String).Nodup :=
  ⟨(smapMerge_idempotent_union c7A c7B (by decide)).1,
   (smapMerge_idempotent_union c7A c7B (by decide)).2 (by decide) (by decide)
     ("d", ["r1", "r2", "r3"]) (by decide)⟩

/-- Folding the redirection body over a key list attempts a rebuild exactly
for the keys not in the recency cache, in order. -/
theorem redirectionFold_keys (rebuildErr : String → Option String)
    (cache : List String) (l : List String) :
    ∀ acc : List String × List String,
      (l.foldl (redirectionFold rebuildErr cache) acc).1 =
        acc.1 ++ l.filter (fun k => !(cache.contains k)) := by
  induction l with
  | nil => intro acc; simp
  | cons k rest ih =>
    intro acc
    cases h : cache.contains k with
    | true =>
      have hm : k ∈ cache := List.mem_of_elem_eq_true h
      simp [redirectionFold, h, hm, List.filter_cons, ih]
    | false =>
      have hm : k ∉ cache := by
        intro hmem
        have hc : cache.contains k = true := List.elem_eq_true_of_mem hmem
        rw [hc] at h
        cases h
      cases hr : rebuildErr k with
      | some msg => simp [redirectionFold, h, hm, hr, List.filter_cons, ih]
      | none => simp [redirectionFold, h, hm, hr, List.filter_cons, ih]

/-- C8: a redirection event attempts a rebuild exactly for the keys of
`activeBundleKeys − previousBundleKeys` that are not already in the recency
cache; in particular `active = [a,b,c]`, `previous = [a,b]` with an empty
cache yields exactly one rebuild attempt, for key `c`. -/
theorem redirection_rebuild_keys :
    (∀ (rebuildErr : String → Option String) (cache active previous : List String),
      (redirectionStep rebuildErr cache active previous).1 =
        (active.filter (fun k => !(previous.contains k))).filter
          (fun k => !(cache.contains k))) ∧
    (redirectionStep (fun _ => none) [] ["a", "b", "c"] ["a", "b"]).1 = ["c"] := by
  constructor
  · intro rebuildErr cache active previous
    unfold redirectionStep bundleKeysDiff
    rw [redirectionFold_keys]
    simp
  · rfl

/-- C9: in the file-watcher loop, a `DoFileChangeRequest` result of `nil` or
`ErrFileTooRecentlyProcessed` produces no error log, every other error is
emitted to the hot-reloader and the logger, and in no case does the loop
abort. -/
theorem fileWatcher_error_handling (o : Oracles) (timeout now : Int)
    (st : DevState) (fp : String) :
    (fileWatcherHandle (doFileChangeRequest o timeout now st fp).2.2).aborted =
      false ∧
    ((fileWatcherHandle (doFileChangeRequest o timeout now st fp).2.2).logs = [] ↔
      ((doFileChangeRequest o timeout now st fp).2.2 = none ∨
        (doFileChangeRequest o timeout now st fp).2.2 =
          some SessionErr.tooRecent)) := by
  rcases h : (doFileChangeRequest o timeout now st fp).2.2 with _ | e
  · simp [h, fileWatcherHandle]
  · rcases e with _ | ⟨m, p⟩ <;> simp [h, fileWatcherHandle]

/-- The `FindRoot` phase never reports a debounce rejection. -/
theorem indirectPhase_err_not_tooRecent (o : Oracles) (now : Int) (st : DevState)
    (fp : String) :
    (indirectPhase o now st fp).2.2 ≠ some SessionErr.tooRecent := by
  unfold indirectPhase
  split
  · simp
  · split
    · simp
    · split <;> simp

/-- The pages/`FindRoot` tail of `DoFileChangeRequest` never reports a
debounce rejection. -/
theorem afterDirect_err_not_tooRecent (o : Oracles) (now : Int) (st : DevState)
    (fp : String) :
    (afterDirect o now st fp).2.2 ≠ some SessionErr.tooRecent := by
  unfold afterDirect
  split
  · split
    · simp
    · next st1 heq => exact indirectPhase_err_not_tooRecent o now st1 fp
  · exact indirectPhase_err_not_tooRecent o now st fp

/-- Once the debounce check accepts a file, `DoFileChangeRequest` cannot
return `ErrFileTooRecentlyProcessed`. -/
theorem doFileChangeRequest_accepted_not_tooRecent (o : Oracles)
    (timeout now : Int) (st : DevState) (fp : String)
    (hw : isWithinRage st.cr fp timeout now = true) :
    (doFileChangeRequest o timeout now st fp).2.2 ≠ some SessionErr.tooRecent := by
  unfold doFileChangeRequest
  rw [hw]
  simp only [Bool.true_eq_false, if_false]
  split
  · simp
  · split
    · split
      · split
        · simp
        · split <;> simp
      · exact afterDirect_err_not_tooRecent o now st fp
    · exact afterDirect_err_not_tooRecent o now st fp

/-- C2: if file `F` was pushed at time `T` (so `lastFileName = F`,
`lastProcessedAt = T`), a second `DoFileChangeRequest` for `F` strictly
before `T + timeout` returns `ErrFileTooRecentlyProcessed`, and one strictly
after `T + timeout` is not rejected with that error. -/
theorem doFileChangeRequest_debounce_window (o : Oracles) (timeout : Int)
    (st : DevState) (fp : String) (T nowB nowA : Int)
    (hname : st.cr.lastFileName = fp) (htime : st.cr.lastProcessedAt = T)
    (hB : nowB < T + timeout) (hA : nowA > T + timeout) :
    (doFileChangeRequest o timeout nowB st fp).2.2 = some SessionErr.tooRecent ∧
    (doFileChangeRequest o timeout nowA st fp).2.2 ≠ some SessionErr.tooRecent := by
  have hwB : isWithinRage st.cr fp timeout nowB = false := by
    unfold isWithinRage
    rw [hname, htime]
    simp
    omega
  have hwA : isWithinRage st.cr fp timeout nowA = true := by
    unfold isWithinRage
    rw [hname, htime]
    simp
    omega
  refine ⟨?_, doFileChangeRequest_accepted_not_tooRecent o timeout nowA st fp hwA⟩
  unfold doFileChangeRequest
  rw [hwB]
  simp

/-- C2 witness: with the debounce window `10`, a session that pushed `"f"`
at time `100` rejects a request for `"f"` at time `105` and does not reject
one at time `120`. -/
theorem doFileChangeRequest_debounce_window_witness :
    (doFileChangeRequest quietOracles 10 105 debounceSt "f").2.2 =
      some SessionErr.tooRecent ∧
    (doFileChangeRequest quietOracles 10 120 debounceSt "f").2.2 ≠
      some SessionErr.tooRecent :=
  doFileChangeRequest_debounce_window quietOracles 10 debounceSt "f" 100 105 120
    rfl rfl (by decide) (by decide)

/-- C10: the debounce check is keyed to the single most recently pushed
file: any path different from `lastFileName` passes `IsWithinRage`
regardless of timing, and `DoFileChangeRequest` can return
`ErrFileTooRecentlyProcessed` only for the recorded file name. -/
theorem debounce_keyed_to_last_file (o : Oracles) (timeout now : Int)
    (st : DevState) (fp : String) (h : fp ≠ st.cr.lastFileName) :
    isWithinRage st.cr fp timeout now = true ∧
    (doFileChangeRequest o timeout now st fp).2.2 ≠ some SessionErr.tooRecent := by
  have hw : isWithinRage st.cr fp timeout now = true := by
    unfold isWithinRage
    rw [if_neg]
    intro hbeq
    exact h (eq_of_beq hbeq)
  exact ⟨hw, doFileChangeRequest_accepted_not_tooRecent o timeout now st fp hw⟩

/-- C10 witness: a session that just pushed `"f"` accepts a request for the
different path `"g"` at a time well inside the debounce window. -/
theorem debounce_keyed_to_last_file_witness :
    isWithinRage debounceSt.cr "g" 10 105 = true ∧
    (doFileChangeRequest quietOracles 10 105 debounceSt "g").2.2 ≠
      some SessionErr.tooRecent :=
  debounce_keyed_to_last_file quietOracles 10 105 debounceSt "g" (by decide)

/-- The `FindRoot` phase performs either no classification or exactly an
indirect rebuild. -/
theorem indirectPhase_cls (o : Oracles) (now : Int) (st : DevState)
    (fp : String) :
    (indirectPhase o now st fp).2.1 = [] ∨
      (indirectPhase o now st fp).2.1 = [Classification.indirect] := by
  unfold indirectPhase
  split
  · exact Or.inl rfl
  · split
    · exact Or.inr rfl
    · split <;> exact Or.inr rfl

/-- After the direct-rebuild check, the classification list is one of `[]`,
`[newPage]`, `[indirect]`, `[newPage, indirect]`; it never contains a direct
rebuild, and it contains a new-page rebuild exactly when the path lies under
`pages/`. -/
theorem afterDirect_props (o : Oracles) (now : Int) (st : DevState)
    (fp : String) :
    ((afterDirect o now st fp).2.1 = [] ∨
     (afterDirect o now st fp).2.1 = [Classification.newPage] ∨
     (afterDirect o now st fp).2.1 = [Classification.indirect] ∨
     (afterDirect o now st fp).2.1 =
       [Classification.newPage, Classification.indirect]) ∧
    ((afterDirect o now st fp).2.1.contains Classification.direct = false) ∧
    ((afterDirect o now st fp).2.1.contains Classification.newPage =
      containsSub fp "pages/") := by
  unfold afterDirect
  split
  · next hpages =>
    split
    · rw [hpages]
      exact ⟨Or.inr (Or.inl rfl), rfl, rfl⟩
    · next st1 heq =>
      rcases indirectPhase_cls o now st1 fp with h | h
      · rw [hpages]
        refine ⟨Or.inr (Or.inl ?_), ?_, ?_⟩ <;> simp [h] <;> decide
      · rw [hpages]
        refine ⟨Or.inr (Or.inr (Or.inr ?_)), ?_, ?_⟩ <;> simp [h] <;> decide
  · next hpages =>
    have hp : containsSub fp "pages/" = false := by
      simpa using hpages
    rw [hp]
    rcases indirectPhase_cls o now st fp with h | h
    · exact ⟨Or.inl h, by rw [h]; decide, by rw [h]; decide⟩
    · exact ⟨Or.inr (Or.inr (Or.inl h)), by rw [h]; decide, by rw [h]; decide⟩

/-- C1 (amended): the transition rules of `DoFileChangeRequest` are
evaluated in order, but only the DirectRebuild branch short-circuits: a
single event performs at most one classification except that a
NewPageRebuild may be followed by an IndirectRebuild in the same call; a
DirectRebuild happens exactly when the accepted, non-output path is a known
root with an active bundle, and a NewPageRebuild happens exactly when the
accepted, non-output path is not handled as DirectRebuild and lies under
the pages convention — including when it is an already-known root whose
bundle is not active. -/
theorem doFileChangeRequest_rule_evaluation (o : Oracles) (timeout now : Int)
    (st : DevState) (fp : String) :
    ((doFileChangeRequest o timeout now st fp).2.1 = [] ∨
     (doFileChangeRequest o timeout now st fp).2.1 = [Classification.direct] ∨
     (doFileChangeRequest o timeout now st fp).2.1 = [Classification.newPage] ∨
     (doFileChangeRequest o timeout now st fp).2.1 = [Classification.indirect] ∨
     (doFileChangeRequest o timeout now st fp).2.1 =
       [Classification.newPage, Classification.indirect]) ∧
    ((doFileChangeRequest o timeout now st fp).2.1.contains Classification.direct =
      (isWithinRage st.cr fp timeout now && !(containsSub fp ".orbit") &&
        directCond o st fp)) ∧
    ((doFileChangeRequest o timeout now st fp).2.1.contains Classification.newPage =
      (isWithinRage st.cr fp timeout now && !(containsSub fp ".orbit") &&
        !(directCond o st fp) && containsSub fp "pages/")) := by
  unfold doFileChangeRequest
  split
  · next h =>
    rw [h]
    exact ⟨Or.inl rfl, rfl, rfl⟩
  · next h =>
    have hw : isWithinRage st.cr fp timeout now = true := by simpa using h
    rw [hw]
    split
    · next ho =>
      rw [ho]
      exact ⟨Or.inl rfl, rfl, rfl⟩
    · next ho =>
      have ho' : containsSub fp ".orbit" = false := by simpa using ho
      rw [ho']
      obtain ⟨hshape, hdir, hnew⟩ := afterDirect_props o now st fp
      split
      · next root heq =>
        have hcond : directCond o st fp = o.isActiveBundle root.bundleKey := by
          unfold directCond
          rw [heq]
        rw [hcond]
        split
        · next hact =>
          rw [hact]
          split
          · exact ⟨Or.inr (Or.inl rfl), rfl, rfl⟩
          · split
            · exact ⟨Or.inr (Or.inl rfl), rfl, rfl⟩
            · exact ⟨Or.inr (Or.inl rfl), rfl, rfl⟩
        · next hact =>
          have hact' : o.isActiveBundle root.bundleKey = false := by
            simpa using hact
          rw [hact']
          refine ⟨?_, hdir, hnew⟩
          rcases hshape with h1 | h1 | h1 | h1
          · exact Or.inl h1
          · exact Or.inr (Or.inr (Or.inl h1))
          · exact Or.inr (Or.inr (Or.inr (Or.inl h1)))
          · exact Or.inr (Or.inr (Or.inr (Or.inr h1)))
      · next heq =>
        have hcond : directCond o st fp = false := by
          unfold directCond
          rw [heq]
        rw [hcond]
        refine ⟨?_, hdir, hnew⟩
        rcases hshape with h1 | h1 | h1 | h1
        · exact Or.inl h1
        · exact Or.inr (Or.inr (Or.inl h1))
        · exact Or.inr (Or.inr (Or.inr (Or.inl h1)))
        · exact Or.inr (Or.inr (Or.inr (Or.inr h1)))

/-- C1 counterexample: in a session where `pages/b.js` is a known root
(with an inactive bundle) and also a recorded dependency of the active root
`pages/a.js`, a single `DoFileChangeRequest` for `pages/b.js` performs both
a NewPageRebuild and an IndirectRebuild — two rebuild classifications in
one call, with the NewPageRebuild issued for an already-known root. -/
theorem doFileChangeRequest_double_classification :
    (doFileChangeRequest c1Oracles 10 100 c1St "pages/b.js").2.1 =
      [Classification.newPage, Classification.indirect] ∧
    lookupComponent c1St.rootComponents "pages/b.js" =
      some ⟨"pages/b.js", "kb"⟩ :=
  ⟨rfl, rfl⟩

end Orbit
